import Mathlib

/-!
Verification of the pazaak self-play training-data synthesis pipeline
(`src/computer_learn.py`) against its natural-language specification.

The Python module keeps a module-level pandas DataFrame `dataset` with
columns `self_score, opp_score, opp_stands, result_card_val, result_stand,
score`; `record_results` appends one row per trainee decision with
`score = np.nan`, and `create_dataset` plays `learning_sets` sets, after
each set filling every NaN score (`fillna`) and, on a win or loss,
overwriting the last row's score (`dataset.iloc[-1, 5]`), then writes the
whole frame to a csv file.  We embed the dataset as a list of rows whose
`score` field is an `Option Rat` (`none` models `np.nan`); all other
columns are always concretely populated by `record_results`, so only the
score can be missing, which makes the row-wise `Option` model faithful to
the frame-wide `fillna`.
-/

namespace Pazaak

/-- One row of the dataset frame, in the column order of the Python frame
`['self_score', 'opp_score', 'opp_stands', 'result_card_val',
'result_stand', 'score']`.  `score = none` models `np.nan`, the
unresolved-label marker. -/
structure DecisionRow where
  self_score : Rat
  opp_score : Rat
  opp_stands : Bool
  result_card_val : Rat
  result_stand : Bool
  score : Option Rat
deriving DecidableEq, Repr

abbrev Dataset := List DecisionRow

/-- The module-level `dataset` as created at import time (lines 25-28):
an empty frame with the six columns. -/
def initialDataset : Dataset := []

/-- Models `dataset.fillna(v, inplace=True)`: every missing value in the
frame is replaced by `v`.  Only the `score` column can ever hold NaN,
since `record_results` populates all other columns concretely. -/
def fillna (v : Rat) (ds : Dataset) : Dataset :=
  ds.map fun r => { r with score := some (r.score.getD v) }

/-- Models `dataset.iloc[-1, 5] = v`: column 5 is `score`, row `-1` is the
last row of the whole frame.  On an empty frame pandas raises
`IndexError`, modelled by `none`. -/
def setLastScore (v : Rat) (ds : Dataset) : Option Dataset :=
  match ds.getLast? with
  | none => none
  | some r => some (ds.dropLast ++ [{ r with score := some v }])

/-- Terminal outcome of one set, from the trainee's point of view. -/
inductive Outcome where
  | win
  | draw
  | loss
deriving DecidableEq, Repr

/-- Models lines 66-76 of `create_dataset`: the branch on
`winner`.  `winner is None` is a draw, `winner.name == "MLTrainee"` a win,
anything else a loss. -/
def roundOutcome (winner : Option String) : Outcome :=
  match winner with
  | none => .draw
  | some n => if n = "MLTrainee" then .win else .loss

/-- The per-set label resolution of `create_dataset` (lines 66-76):
draw fills all unresolved scores with `0`; win fills with `0.3` and then
overwrites the last row's score with `1`; loss fills with `-0.3` and
overwrites the last row's score with `-1`. -/
def shapeRound (o : Outcome) (ds : Dataset) : Option Dataset :=
  match o with
  | .draw => some (fillna 0 ds)
  | .win => setLastScore 1 (fillna (3 / 10) ds)
  | .loss => setLastScore (-1) (fillna (-(3 / 10)) ds)

/-- The decision-time data carried by one `record_results` append, i.e. a
`DecisionRow` before its `score` field exists. -/
structure RowData where
  self_score : Rat
  opp_score : Rat
  opp_stands : Bool
  result_card_val : Rat
  result_stand : Bool
deriving DecidableEq, Repr

/-- The row `record_results` appends for this decision data: all columns
set, `score = np.nan`. -/
def mkRow (rd : RowData) : DecisionRow :=
  { self_score := rd.self_score, opp_score := rd.opp_score,
    opp_stands := rd.opp_stands, result_card_val := rd.result_card_val,
    result_stand := rd.result_stand, score := none }

/-- One played set, as seen by the dataset: the decision rows the trainee
recorded during the set (in order), and the winner returned by the
external `pazaak.play_a_set` (by name; `none` is a draw). -/
abbrev Round := List RowData × Option String

/-- Models the loop of `create_dataset` (lines 62-77) acting on the
module-level dataset `ds`: each set appends its recorded rows (each with
an unresolved score) and then resolves labels per the set's outcome.
`none` models the `IndexError` pandas raises when `iloc[-1]` is taken on
an empty frame.  The resulting dataset is what line 79 writes to the csv
file in full. -/
def create_dataset : List Round → Dataset → Option Dataset
  | [], ds => some ds
  | (rows, winner) :: rest, ds =>
    match shapeRound (roundOutcome winner) (ds ++ rows.map mkRow) with
    | none => none
    | some ds' => create_dataset rest ds'

/-- Models lines 80-86 of `create_dataset`: `total_time = int(end - start)`
and `sets_per_sec = learning_sets / total_time`.  Python raises
`ZeroDivisionError` when `total_time = 0`; there is no guard in the
source, so the fault is modelled as `Except.error ()`. -/
def sets_per_sec (learning_sets : Nat) (total_time : Nat) : Except Unit Rat :=
  if total_time = 0 then Except.error ()
  else Except.ok ((learning_sets : Rat) / (total_time : Rat))

/-- Models a whole `create_dataset` call after the loop: the dataset is
persisted (line 79) and then the throughput is computed (lines 80-86).
The first component is the persisted dataset; the second is the
throughput computation, which can fault. -/
def create_dataset_run (rounds : List Round) (total_time : Nat)
    (ds : Dataset) : Option (Dataset × Except Unit Rat) :=
  (create_dataset rounds ds).map
    fun d => (d, sets_per_sec rounds.length total_time)

/-- Overwrite a row's score: the row with all non-label columns kept and
`score` set to `v`. -/
def setScore (v : Rat) (r : DecisionRow) : DecisionRow :=
  { r with score := some v }

/-- A decision returned by a strategy function:
`(play_card, card_index, stand)`. -/
structure Decision where
  play_card : Bool
  card_index : Nat
  stand : Bool
deriving DecidableEq, Repr

/-- A strategy function `(hand, self_score, opp_score, opp_stands) ->
(play_card, card_index, stand)`.  A Python strategy can raise; a raised
exception is modelled by `Except.error ()`. -/
abbrev Strategy := List Rat → Rat → Rat → Bool → Except Unit Decision

/-- An error escaping a `record_results` call: either the delegated
strategy raised, or `self_hand[card_index]` raised `IndexError`. -/
inductive RecError where
  | strategyRaised
  | indexOutOfRange
deriving DecidableEq, Repr

/-- Models lines 160-161 of `record_results`: if `strategy_func is None`,
draw `r = random.random()` and use the blackjack-like strategy `bls` when
`r < 0.9`, the random strategy `rds` otherwise; an explicitly supplied
strategy is used as-is.  The fresh uniform draw `r` is passed in
explicitly. -/
def chosenStrategy (strategy_func : Option Strategy) (r : Rat)
    (bls rds : Strategy) : Strategy :=
  match strategy_func with
  | none => if r < 9 / 10 then bls else rds
  | some f => f

/-- Models `record_results` (lines 147-172) acting on the module-level
dataset `ds`: choose the strategy, call it on the decision context, and
append one row with the context, the played card's value
(`self_hand[card_index] if play_card else 0`) and `score = np.nan`,
returning the strategy's decision unchanged.  A raised strategy exception
or an out-of-range hand index propagates before the append, leaving the
dataset as it was. -/
def record_results (self_hand : List Rat) (self_score opp_score : Rat)
    (opp_stands : Bool) (strategy_func : Option Strategy) (r : Rat)
    (bls rds : Strategy) (ds : Dataset) :
    Except RecError Decision × Dataset :=
  match chosenStrategy strategy_func r bls rds
      self_hand self_score opp_score opp_stands with
  | .error _ => (.error .strategyRaised, ds)
  | .ok d =>
    if d.play_card ∧ self_hand.length ≤ d.card_index then
      (.error .indexOutOfRange, ds)
    else
      (.ok d,
       ds ++ [{ self_score := self_score, opp_score := opp_score,
                opp_stands := opp_stands,
                result_card_val :=
                  if d.play_card then self_hand.getD d.card_index 0 else 0,
                result_stand := d.stand, score := none }])

/-- The non-label columns of a row, used to state frame conditions. -/
def rowFields (r : DecisionRow) : Rat × Rat × Bool × Rat × Bool :=
  (r.self_score, r.opp_score, r.opp_stands, r.result_card_val, r.result_stand)

/-- One row of the csv file as loaded by `train_model` (line 102): every
label is a concrete number by then. -/
structure CsvRow where
  self_score : Rat
  opp_score : Rat
  opp_stands : Bool
  result_card_val : Rat
  result_stand : Bool
  score : Rat
deriving DecidableEq, Repr

/-- One row of the feature matrix `X` that `train_model` fits the
regressor on, with the columns the engineered frame ends up with
(lines 108-116). -/
structure FeatureRow where
  self_score : Rat
  opp_stands : Bool
  result_stand : Bool
  score_difference : Rat
  score_if_card_played : Rat
deriving DecidableEq, Repr

/-- The feature engineering of `train_model` (lines 108-111) applied to
one loaded row: add `score_difference = self_score - opp_score`, drop
`opp_score`, add `score_if_card_played = self_score + result_card_val`,
drop `result_card_val`.  `self_score`, `opp_stands` and `result_stand`
are kept. -/
def engineerFeatures (r : CsvRow) : FeatureRow :=
  { self_score := r.self_score, opp_stands := r.opp_stands,
    result_stand := r.result_stand,
    score_difference := r.self_score - r.opp_score,
    score_if_card_played := r.self_score + r.result_card_val }

/-- The column labels of the loaded dataset frame, in order. -/
def dataset_columns : List String :=
  ["self_score", "opp_score", "opp_stands", "result_card_val",
   "result_stand", "score"]

/-- The columns of the feature matrix `X`, obtained by replaying the
column operations of `train_model` on the frame's column list: append
`score_difference` (line 108), drop `opp_score` (line 109), append
`score_if_card_played` (line 110), drop `result_card_val` (line 111),
then drop the target `score` (line 115). -/
def train_feature_columns : List String :=
  ((((dataset_columns ++ ["score_difference"]).erase "opp_score")
      ++ ["score_if_card_played"]).erase "result_card_val").erase "score"

/-- Models the data preparation of `train_model` (lines 102-116): the
feature matrix `X` and target vector `y` derived row-wise from the loaded
dataset. -/
def train_model_X_y (df : List CsvRow) : List FeatureRow × List Rat :=
  (df.map engineerFeatures, df.map CsvRow.score)

/-- A concrete decision datum, used for concrete evaluations. -/
def rd1 : RowData :=
  { self_score := 10, opp_score := 5, opp_stands := false,
    result_card_val := 2, result_stand := false }

/-- A second concrete decision datum. -/
def rd2 : RowData :=
  { self_score := 12, opp_score := 7, opp_stands := true,
    result_card_val := 0, result_stand := true }

/-- A concrete strategy that always plays the first hand card. -/
def playFirstStrategy : Strategy :=
  fun _ _ _ _ => .ok { play_card := true, card_index := 0, stand := false }

/-- A concrete strategy modelling a policy that always raises. -/
def raisingStrategy : Strategy :=
  fun _ _ _ _ => .error ()

end Pazaak

namespace Pazaak

/-- Filling a row whose score is present leaves the row unchanged. -/
theorem fillRow_of_resolved (v : Rat) (r : DecisionRow)
    (h : r.score ≠ none) :
    ({ r with score := some (r.score.getD v) } : DecisionRow) = r := by
  obtain ⟨x, hx⟩ := Option.ne_none_iff_exists'.mp h
  rw [hx, Option.getD_some, ← hx]

/-- Filling a row whose score is missing sets the score to the fill
value. -/
theorem fillRow_of_unresolved (v : Rat) (r : DecisionRow)
    (h : r.score = none) :
    ({ r with score := some (r.score.getD v) } : DecisionRow) =
      setScore v r := by
  rw [h]
  rfl

theorem fillna_append (v : Rat) (a b : Dataset) :
    fillna v (a ++ b) = fillna v a ++ fillna v b :=
  List.map_append _ _ _

/-- The fill pass does not touch rows whose label is already resolved. -/
theorem fillna_of_resolved (v : Rat) (a : Dataset)
    (h : ∀ r ∈ a, r.score ≠ none) : fillna v a = a := by
  induction a with
  | nil => rfl
  | cons r rs ih =>
    show ({ r with score := some (r.score.getD v) } :: fillna v rs) = r :: rs
    rw [fillRow_of_resolved v r (h r (List.mem_cons_self _ _)),
        ih fun q hq => h q (List.mem_cons_of_mem _ hq)]

/-- The fill pass sets the score of every unresolved row to the fill
value. -/
theorem fillna_of_unresolved (v : Rat) (a : Dataset)
    (h : ∀ r ∈ a, r.score = none) : fillna v a = a.map (setScore v) := by
  induction a with
  | nil => rfl
  | cons r rs ih =>
    show ({ r with score := some (r.score.getD v) } :: fillna v rs) =
      setScore v r :: rs.map (setScore v)
    rw [fillRow_of_unresolved v r (h r (List.mem_cons_self _ _)),
        ih fun q hq => h q (List.mem_cons_of_mem _ hq)]

theorem setScore_setScore (v w : Rat) (r : DecisionRow) :
    setScore v (setScore w r) = setScore v r := rfl

theorem rowFields_setScore (v : Rat) (r : DecisionRow) :
    rowFields (setScore v r) = rowFields r := rfl

/-- Overwriting the last score of `a ++ b` with `b` nonempty acts on the
last row of `b`. -/
theorem setLastScore_append (v : Rat) (a b : Dataset) (hb : b ≠ []) :
    setLastScore v (a ++ b) =
      some (a ++ (b.dropLast ++ [setScore v (b.getLast hb)])) := by
  unfold setLastScore
  rw [List.getLast?_append_of_ne_nil a hb,
      List.getLast?_eq_getLast_of_ne_nil hb]
  show some ((a ++ b).dropLast ++ [{ b.getLast hb with score := some v }]) = _
  rw [List.dropLast_append_of_ne_nil a hb, List.append_assoc]
  rfl

/-- Shaping a won set: with `prior` fully resolved and `newr` the
unresolved rows of the set, all of `newr` gets `0.3` and then the last
row is overwritten with `1`. -/
theorem shapeRound_win_eq (prior newr : Dataset)
    (hprior : ∀ r ∈ prior, r.score ≠ none)
    (hnew : ∀ r ∈ newr, r.score = none) (hne : newr ≠ []) :
    shapeRound .win (prior ++ newr) =
      some (prior ++ (newr.dropLast.map (setScore (3 / 10))
        ++ [setScore 1 (newr.getLast hne)])) := by
  have hmapne : newr.map (setScore (3 / 10)) ≠ [] := by simpa using hne
  show setLastScore 1 (fillna (3 / 10) (prior ++ newr)) = _
  rw [fillna_append, fillna_of_resolved _ _ hprior,
      fillna_of_unresolved _ _ hnew,
      setLastScore_append 1 prior (newr.map (setScore (3 / 10))) hmapne]
  simp only [← List.map_dropLast, List.getLast_map, setScore_setScore]

/-- Shaping a lost set: all of `newr` gets `-0.3` and then the last row
is overwritten with `-1`. -/
theorem shapeRound_loss_eq (prior newr : Dataset)
    (hprior : ∀ r ∈ prior, r.score ≠ none)
    (hnew : ∀ r ∈ newr, r.score = none) (hne : newr ≠ []) :
    shapeRound .loss (prior ++ newr) =
      some (prior ++ (newr.dropLast.map (setScore (-(3 / 10)))
        ++ [setScore (-1) (newr.getLast hne)])) := by
  have hmapne : newr.map (setScore (-(3 / 10))) ≠ [] := by simpa using hne
  show setLastScore (-1) (fillna (-(3 / 10)) (prior ++ newr)) = _
  rw [fillna_append, fillna_of_resolved _ _ hprior,
      fillna_of_unresolved _ _ hnew,
      setLastScore_append (-1) prior (newr.map (setScore (-(3 / 10)))) hmapne]
  simp only [← List.map_dropLast, List.getLast_map, setScore_setScore]

/-- Shaping a drawn set: all of `newr` gets `0`. -/
theorem shapeRound_draw_eq (prior newr : Dataset)
    (hprior : ∀ r ∈ prior, r.score ≠ none)
    (hnew : ∀ r ∈ newr, r.score = none) :
    shapeRound .draw (prior ++ newr) =
      some (prior ++ newr.map (setScore 0)) := by
  show some (fillna 0 (prior ++ newr)) = _
  rw [fillna_append, fillna_of_resolved _ _ hprior,
      fillna_of_unresolved _ _ hnew]

/-- For any outcome, shaping `prior ++ newr` with `prior` resolved and
`newr` unresolved and nonempty succeeds, keeps `prior` verbatim, and
replaces `newr` by rows of the same length with the same non-label
columns, all of them resolved. -/
theorem shapeRound_spec (o : Outcome) (prior newr : Dataset)
    (hprior : ∀ r ∈ prior, r.score ≠ none)
    (hnew : ∀ r ∈ newr, r.score = none) (hne : newr ≠ []) :
    ∃ newr', shapeRound o (prior ++ newr) = some (prior ++ newr') ∧
      newr'.length = newr.length ∧
      newr'.map rowFields = newr.map rowFields ∧
      ∀ r ∈ newr', r.score ≠ none := by
  have hcomp3 : ∀ v : Rat, rowFields ∘ setScore v = rowFields :=
    fun v => funext fun r => rfl
  have hlenpos : 0 < newr.length := List.length_pos.mpr hne
  cases o with
  | draw =>
    refine ⟨newr.map (setScore 0),
      shapeRound_draw_eq prior newr hprior hnew, by simp, ?_, ?_⟩
    · rw [List.map_map, hcomp3]
    · intro r hr
      obtain ⟨q, _, rfl⟩ := List.mem_map.1 hr
      simp [setScore]
  | win =>
    refine ⟨newr.dropLast.map (setScore (3 / 10))
        ++ [setScore 1 (newr.getLast hne)],
      shapeRound_win_eq prior newr hprior hnew hne, ?_, ?_, ?_⟩
    · simp only [List.length_append, List.length_map, List.length_dropLast,
        List.length_singleton]
      omega
    · conv_rhs => rw [← List.dropLast_append_getLast hne]
      rw [List.map_append, List.map_append, List.map_map, hcomp3]
      rfl
    · intro r hr
      rcases List.mem_append.1 hr with h | h
      · obtain ⟨q, _, rfl⟩ := List.mem_map.1 h
        simp [setScore]
      · rw [List.mem_singleton] at h
        subst h
        simp [setScore]
  | loss =>
    refine ⟨newr.dropLast.map (setScore (-(3 / 10)))
        ++ [setScore (-1) (newr.getLast hne)],
      shapeRound_loss_eq prior newr hprior hnew hne, ?_, ?_, ?_⟩
    · simp only [List.length_append, List.length_map, List.length_dropLast,
        List.length_singleton]
      omega
    · conv_rhs => rw [← List.dropLast_append_getLast hne]
      rw [List.map_append, List.map_append, List.map_map, hcomp3]
      rfl
    · intro r hr
      rcases List.mem_append.1 hr with h | h
      · obtain ⟨q, _, rfl⟩ := List.mem_map.1 h
        simp [setScore]
      · rw [List.mem_singleton] at h
        subst h
        simp [setScore]

/-- Running the `create_dataset` loop on a fully-resolved dataset with
every set recording at least one decision succeeds and appends exactly
one resolved row per recorded decision, leaving the initial rows in
place. -/
theorem create_dataset_spec : ∀ (rounds : List Round) (ds : Dataset),
    (∀ r ∈ ds, r.score ≠ none) → (∀ p ∈ rounds, p.1 ≠ []) →
    ∃ tail, create_dataset rounds ds = some (ds ++ tail) ∧
      tail.length = (rounds.map fun p => p.1.length).sum ∧
      ∀ r ∈ tail, r.score ≠ none
  | [], ds, _, _ => ⟨[], by simp [create_dataset], rfl, by simp⟩
  | (rows, winner) :: rest, ds, hds, hne => by
    have hrne : rows ≠ [] := hne (rows, winner) (List.mem_cons_self _ _)
    have hmkne : rows.map mkRow ≠ [] := by simpa using hrne
    have hunres : ∀ r ∈ rows.map mkRow, r.score = none := by
      intro r hr
      obtain ⟨q, _, rfl⟩ := List.mem_map.1 hr
      rfl
    obtain ⟨newr', hshape, hlen, _, hres⟩ :=
      shapeRound_spec (roundOutcome winner) ds (rows.map mkRow)
        hds hunres hmkne
    have hds' : ∀ r ∈ ds ++ newr', r.score ≠ none := by
      intro r hr
      rcases List.mem_append.1 hr with h | h
      · exact hds r h
      · exact hres r h
    obtain ⟨tail', hrun, hlen', hres'⟩ :=
      create_dataset_spec rest (ds ++ newr') hds'
        fun q hq => hne q (List.mem_cons_of_mem _ hq)
    refine ⟨newr' ++ tail', ?_, ?_, ?_⟩
    · show (match shapeRound (roundOutcome winner) (ds ++ rows.map mkRow) with
          | none => none
          | some ds' => create_dataset rest ds') = _
      rw [hshape]
      show create_dataset rest (ds ++ newr') = some (ds ++ (newr' ++ tail'))
      rw [hrun, List.append_assoc]
    · simp only [List.length_append, List.map_cons, List.sum_cons, hlen',
        hlen, List.length_map]
    · intro r hr
      rcases List.mem_append.1 hr with h | h
      · exact hres r h
      · exact hres' r h

/-- C1: for a set won by the trainee, the shaper assigns label `0.3` to
every row appended during that set (all of them unresolved at that
point), except the last such row, which is assigned label `1`; rows of
earlier sets (already resolved) are untouched. -/
theorem win_round_labels (prior newr : Dataset)
    (hprior : ∀ r ∈ prior, r.score ≠ none)
    (hnew : ∀ r ∈ newr, r.score = none) (hne : newr ≠ []) :
    shapeRound Outcome.win (prior ++ newr) =
      some (prior ++ (newr.dropLast.map (setScore (3 / 10))
        ++ [setScore 1 (newr.getLast hne)])) :=
  shapeRound_win_eq prior newr hprior hnew hne

/-- Witness for C1 at a concrete two-decision set. -/
theorem win_round_labels_witness :
    shapeRound Outcome.win ([] ++ [mkRow rd1, mkRow rd2]) =
      some ([] ++ ([mkRow rd1, mkRow rd2].dropLast.map (setScore (3 / 10))
        ++ [setScore 1 ([mkRow rd1, mkRow rd2].getLast (by decide))])) :=
  win_round_labels [] [mkRow rd1, mkRow rd2] (by simp)
    (by decide) (by decide)

/-- C2: for a set lost by the trainee, the shaper assigns label `-0.3`
to every row appended during that set except the last, which gets `-1`;
for a drawn set every appended row gets label `0`. -/
theorem loss_draw_round_labels (prior newr : Dataset)
    (hprior : ∀ r ∈ prior, r.score ≠ none)
    (hnew : ∀ r ∈ newr, r.score = none) (hne : newr ≠ []) :
    shapeRound Outcome.loss (prior ++ newr) =
      some (prior ++ (newr.dropLast.map (setScore (-(3 / 10)))
        ++ [setScore (-1) (newr.getLast hne)])) ∧
    shapeRound Outcome.draw (prior ++ newr) =
      some (prior ++ newr.map (setScore 0)) :=
  ⟨shapeRound_loss_eq prior newr hprior hnew hne,
   shapeRound_draw_eq prior newr hprior hnew⟩

/-- Witness for C2 at a concrete two-decision set. -/
theorem loss_draw_round_labels_witness :
    (shapeRound Outcome.loss ([] ++ [mkRow rd1, mkRow rd2]) =
      some ([] ++ ([mkRow rd1, mkRow rd2].dropLast.map (setScore (-(3 / 10)))
        ++ [setScore (-1) ([mkRow rd1, mkRow rd2].getLast (by decide))]))) ∧
    (shapeRound Outcome.draw ([] ++ [mkRow rd1, mkRow rd2]) =
      some ([] ++ [mkRow rd1, mkRow rd2].map (setScore 0))) :=
  loss_draw_round_labels [] [mkRow rd1, mkRow rd2] (by simp)
    (by decide) (by decide)

/-- C3: shaping at set end only resolves the labels of the rows appended
during the just-completed set: the prior (resolved) rows are kept
verbatim, labels included, and the appended rows keep all their
non-label columns. -/
theorem shaping_frame_condition (o : Outcome) (prior newr : Dataset)
    (hprior : ∀ r ∈ prior, r.score ≠ none)
    (hnew : ∀ r ∈ newr, r.score = none) (hne : newr ≠ []) :
    ∃ newr', shapeRound o (prior ++ newr) = some (prior ++ newr') ∧
      newr'.length = newr.length ∧
      newr'.map rowFields = newr.map rowFields := by
  obtain ⟨newr', h1, h2, h3, _⟩ :=
    shapeRound_spec o prior newr hprior hnew hne
  exact ⟨newr', h1, h2, h3⟩

/-- Witness for C3: a resolved one-row prior set followed by a won
one-row set. -/
theorem shaping_frame_condition_witness :
    ∃ newr', shapeRound Outcome.win
        ([setScore 0 (mkRow rd1)] ++ [mkRow rd2]) =
      some ([setScore 0 (mkRow rd1)] ++ newr') ∧
      newr'.length = [mkRow rd2].length ∧
      newr'.map rowFields = [mkRow rd2].map rowFields :=
  shaping_frame_condition Outcome.win [setScore 0 (mkRow rd1)] [mkRow rd2]
    (by decide) (by decide) (by decide)

/-- C4: a synthesis run over zero sets persists the still-empty dataset
(a header-only csv), but the subsequent throughput computation
`learning_sets / total_time` is unguarded: with the elapsed time
truncating to `0` seconds it divides by zero, so the call raises
`ZeroDivisionError` instead of completing. -/
theorem zero_sets_header_only_but_throughput_faults :
    create_dataset_run [] 0 initialDataset =
      some (initialDataset, Except.error ()) := rfl

/-- C5 counterexample: the claim says the pair `(self_score, opp_score)`
is replaced by the single feature `score_difference`, so that the fitted
features are exactly the engineered columns in place of the replaced
ones; but `train_model` only drops `opp_score`, and `self_score` is
still among the fitted feature columns. -/
theorem self_score_retained_among_features :
    "self_score" ∈ train_feature_columns ∧
    train_feature_columns ≠
      ["opp_stands", "result_stand", "score_difference",
       "score_if_card_played"] := by
  constructor
  · decide
  · decide

/-- C5 as amended: feature engineering drops only `opp_score` and
`result_card_val`, adding `score_difference = self_score - opp_score`
and `score_if_card_played = self_score + result_card_val`, with
`self_score`, `opp_stands` and `result_stand` retained; the engineered
values are pure, row-wise, order-preserving functions of the loaded
row's fields, and the fitted feature columns are exactly the five listed
ones. -/
theorem feature_engineering_rowwise (df : List CsvRow) :
    (train_model_X_y df).1 = df.map (fun r =>
      { self_score := r.self_score, opp_stands := r.opp_stands,
        result_stand := r.result_stand,
        score_difference := r.self_score - r.opp_score,
        score_if_card_played := r.self_score + r.result_card_val }) ∧
    (train_model_X_y df).2 = df.map CsvRow.score ∧
    train_feature_columns =
      ["self_score", "opp_stands", "result_stand", "score_difference",
       "score_if_card_played"] :=
  ⟨rfl, rfl, by decide⟩

/-- C6: when no explicit strategy is supplied, a `record_results` call
behaves exactly as if the blackjack-like (heuristic) strategy had been
supplied when the call's fresh uniform draw is below `0.9`, and as if
the random strategy had been supplied otherwise; the draw is taken anew
on each call. -/
theorem policy_mixture_on_default (self_hand : List Rat)
    (self_score opp_score : Rat) (opp_stands : Bool) (r : Rat)
    (bls rds : Strategy) (ds : Dataset) :
    record_results self_hand self_score opp_score opp_stands none r
        bls rds ds =
      record_results self_hand self_score opp_score opp_stands
        (some (if r < 9 / 10 then bls else rds)) r bls rds ds := rfl

/-- C7: a `record_results` call whose delegated strategy returns a
decision (with an in-range card index when a card is played) appends
exactly one row: the pre-decision context as passed in, the played
card's value (or `0` when no card is played), the stand flag, and an
unresolved score, and returns exactly the strategy's decision. -/
theorem record_results_appends_one_row (strat : Strategy)
    (self_hand : List Rat) (self_score opp_score : Rat)
    (opp_stands : Bool) (r : Rat) (bls rds : Strategy) (ds : Dataset)
    (d : Decision)
    (hstrat : strat self_hand self_score opp_score opp_stands = .ok d)
    (hidx : d.play_card = true → d.card_index < self_hand.length) :
    record_results self_hand self_score opp_score opp_stands
        (some strat) r bls rds ds =
      (.ok d,
       ds ++ [{ self_score := self_score, opp_score := opp_score,
                opp_stands := opp_stands,
                result_card_val :=
                  if d.play_card then self_hand.getD d.card_index 0 else 0,
                result_stand := d.stand, score := none }]) := by
  simp only [record_results, chosenStrategy, hstrat]
  rw [if_neg]
  rintro ⟨hpc, hle⟩
  exact absurd (hidx hpc) (not_lt.2 hle)

/-- Witness for C7: playing the only card of a one-card hand. -/
theorem record_results_appends_one_row_witness :
    record_results [5] 10 8 false (some playFirstStrategy) 0
        playFirstStrategy playFirstStrategy [] =
      (.ok { play_card := true, card_index := 0, stand := false },
       [] ++ [{ self_score := 10, opp_score := 8, opp_stands := false,
                result_card_val := 5, result_stand := false,
                score := none }]) :=
  record_results_appends_one_row playFirstStrategy [5] 10 8 false 0
    playFirstStrategy playFirstStrategy []
    { play_card := true, card_index := 0, stand := false } rfl
    (fun _ => by decide)

/-- C8: a synthesis run of `N` sets starting from the empty dataset, in
which every set reaches a terminal outcome and records at least one
decision, leaves no row unresolved, and the dataset's row count equals
the sum over the sets of the number of decisions recorded in each. -/
theorem full_run_fully_labeled (rounds : List Round)
    (hne : ∀ p ∈ rounds, p.1 ≠ []) :
    ∃ d, create_dataset rounds initialDataset = some d ∧
      (∀ r ∈ d, r.score ≠ none) ∧
      d.length = (rounds.map fun p => p.1.length).sum := by
  obtain ⟨tail, h1, h2, h3⟩ :=
    create_dataset_spec rounds initialDataset (by simp [initialDataset])
      hne
  refine ⟨tail, ?_, h3, h2⟩
  simpa [initialDataset] using h1

/-- Witness for C8: one won set and one drawn set against the random
fallback, each with one decision. -/
theorem full_run_fully_labeled_witness :
    ∃ d, create_dataset [([rd1], some "MLTrainee"), ([rd2], none)]
        initialDataset = some d ∧
      (∀ r ∈ d, r.score ≠ none) ∧
      d.length = ([([rd1], some "MLTrainee"), ([rd2], none)].map
        fun p => p.1.length).sum :=
  full_run_fully_labeled [([rd1], some "MLTrainee"), ([rd2], none)]
    (by decide)

/-- C9 counterexample: the module-level dataset is not re-created empty
per `create_dataset` call, so a second run in the same process starts
from the first run's rows and its persisted file still contains them: a
second one-decision run persists two rows, not one. -/
theorem second_run_includes_first_run_rows :
    create_dataset [([rd1], none)] initialDataset =
      some [setScore 0 (mkRow rd1)] ∧
    create_dataset [([rd2], none)] [setScore 0 (mkRow rd1)] =
      some [setScore 0 (mkRow rd1), setScore 0 (mkRow rd2)] ∧
    [setScore 0 (mkRow rd1), setScore 0 (mkRow rd2)] ≠
      [setScore 0 (mkRow rd2)] := by
  refine ⟨by decide, by decide, by decide⟩

/-- C9 as amended: the dataset is created empty once at module import,
not at each synthesis-run invocation; a run appends its rows to whatever
the dataset already holds, so the file persisted at run end holds the
pre-existing rows followed by exactly the rows recorded during that run
(hence exactly the run's own rows only when the run starts from the
import-time empty dataset). -/
theorem run_appends_to_existing_dataset (rounds : List Round)
    (ds : Dataset) (hds : ∀ r ∈ ds, r.score ≠ none)
    (hne : ∀ p ∈ rounds, p.1 ≠ []) :
    ∃ tail, create_dataset rounds ds = some (ds ++ tail) ∧
      tail.length = (rounds.map fun p => p.1.length).sum ∧
      ∀ r ∈ tail, r.score ≠ none :=
  create_dataset_spec rounds ds hds hne

/-- Witness for C9 as amended: a one-set run on top of a one-row
resolved dataset. -/
theorem run_appends_to_existing_dataset_witness :
    ∃ tail, create_dataset [([rd2], some "Opponent")]
        [setScore 0 (mkRow rd1)] =
      some ([setScore 0 (mkRow rd1)] ++ tail) ∧
      tail.length = ([([rd2], some "Opponent")].map
        fun p => p.1.length).sum ∧
      ∀ r ∈ tail, r.score ≠ none :=
  run_appends_to_existing_dataset [([rd2], some "Opponent")]
    [setScore 0 (mkRow rd1)] (by decide) (by decide)

/-- C10: if the delegated strategy raises during a `record_results`
call, the call propagates the error and the dataset is returned
unchanged: no row is appended for a decision that was never produced. -/
theorem no_append_when_strategy_raises (strategy_func : Option Strategy)
    (self_hand : List Rat) (self_score opp_score : Rat)
    (opp_stands : Bool) (r : Rat) (bls rds : Strategy) (ds : Dataset)
    (e : Unit)
    (h : chosenStrategy strategy_func r bls rds self_hand self_score
        opp_score opp_stands = .error e) :
    record_results self_hand self_score opp_score opp_stands
        strategy_func r bls rds ds =
      (.error .strategyRaised, ds) := by
  simp only [record_results, h]

/-- Witness for C10: an explicitly supplied always-raising strategy. -/
theorem no_append_when_strategy_raises_witness :
    record_results [5] 10 8 false (some raisingStrategy) 0
        raisingStrategy raisingStrategy [] =
      (.error .strategyRaised, []) :=
  no_append_when_strategy_raises (some raisingStrategy) [5] 10 8 false 0
    raisingStrategy raisingStrategy [] () rfl

end Pazaak
